import Mathlib

/-!
# FNDDS ingest (package fndds): shallow embedding and verification

Source files embedded here:

* admin/ingest/fndds/fndds.go : ProcessFiles, foods, servings, nutrients, inputFoods
* ds/ds.go                    : DS.Get, DS.Update
* model/foods.go              : Food, Serving, Nutrient, NutrientData, Derivation

Go code outside the repository (strconv, time, encoding/json, encoding/csv, os,
gocb) is not translated.  Its observable results enter the embedding either as
parameters (structure Lib, structure DictEnv, structure CsvFile) or, for the
bucket, as a map from keys to documents.
-/

namespace FnddsIngest

/-! ## Values -/

/-- Go error values, identified by their message. -/
abbrev Error := String

/-- One decoded CSV record. -/
abbrev Row := List String

/-- Symbolic float32 values.  The embedding never computes with floats; it only
has to tell apart zero, the infinities and the value denoted by a decimal
literal.  near32 is the float32 nearest to (-1)^neg * mant * 10^exp10, via64 is
the float32 conversion of the float64 nearest to that decimal. -/
inductive F32 where
  | near32 (neg : Bool) (mant : Nat) (exp10 : Int)
  | via64 (neg : Bool) (mant : Nat) (exp10 : Int)
  | inf (neg : Bool)
  | nan
  deriving DecidableEq, Repr

/-- The float32 zero value. -/
def F32.zero : F32 := F32.near32 false 0 0

instance : Inhabited F32 := ⟨F32.zero⟩

/-- Whether mant * 10^exp10 reaches the bound t. -/
def reaches (mant : Nat) (exp10 : Int) (t : Nat) : Bool :=
  if 0 ≤ exp10 then decide (t ≤ mant * 10 ^ exp10.toNat)
  else decide (t * 10 ^ (-exp10).toNat ≤ mant)

/-- The least magnitude that rounds beyond the largest float32. -/
def overflow32 : Nat := 2 ^ 128 - 2 ^ 103

/-- Whether a float32 is a finite number.  A decimal reaching overflow32
rounds to an infinity; one that went through float64 first does so from
overflow32 - 2^74 on, where its float64 already is 2^128 - 2^103. -/
def F32.isFinite : F32 → Bool
  | .near32 _ mant exp10 => !reaches mant exp10 overflow32
  | .via64 _ mant exp10 => !reaches mant exp10 (overflow32 - 2 ^ 74)
  | .inf _ => false
  | .nan => false

/-- Calendar date carried by a time.Time (the ingest only parses dates). -/
structure Time where
  year : Nat
  month : Nat
  day : Nat
  deriving DecidableEq, Repr

/-- The zero time.Time: January 1, year 1. -/
def Time.zero : Time := ⟨1, 1, 1⟩

instance : Inhabited Time := ⟨Time.zero⟩

/-- Result of strconv.ParseFloat.  Go returns a value next to the error:
0 with ErrSyntax, plus or minus infinity with ErrRange. -/
inductive FloatParse where
  | ok (v : F32)
  | malformed
  | outOfRange (neg : Bool)
  deriving DecidableEq, Repr

/-- The float returned by ParseFloat, after the float32 conversion done by the
caller. -/
def FloatParse.value : FloatParse → F32
  | .ok v => v
  | .malformed => F32.zero
  | .outOfRange neg => F32.inf neg

/-- Whether ParseFloat returned a non-nil error. -/
def FloatParse.failed : FloatParse → Bool
  | .ok _ => false
  | _ => true

/-- Result of strconv.ParseInt.  Go returns a value next to the error:
0 with ErrSyntax, the nearest bound of the bit size with ErrRange. -/
inductive IntParse where
  | ok (v : Int)
  | malformed
  | outOfRange (neg : Bool)
  deriving DecidableEq, Repr

/-- The int64 returned by ParseInt for the given bit size. -/
def IntParse.value (bitSize : Nat) : IntParse → Int
  | .ok v => v
  | .malformed => 0
  | .outOfRange true => - (2 : Int) ^ (bitSize - 1)
  | .outOfRange false => (2 : Int) ^ (bitSize - 1) - 1

/-- Whether ParseInt returned a non-nil error. -/
def IntParse.failed : IntParse → Bool
  | .ok _ => false
  | _ => true

/-- The Go conversion uint(v) of an int64 on a 64-bit platform. -/
def toUint (v : Int) : Nat := (v % (2 : Int) ^ 64).toNat

/-! ## Data model (model/foods.go) -/

/-- Serving, foods.go lines 60-66. -/
structure Serving where
  Nutrientbasis : String := ""
  Description : String := ""
  Servingstate : String := ""
  Weight : F32 := F32.zero
  Servingamount : F32 := F32.zero
  deriving DecidableEq, Repr

/-- Nutrient, foods.go lines 69-75. -/
structure Nutrient where
  Nutrientno : Nat := 0
  Tagname : String := ""
  Name : String := ""
  Unit : String := ""
  Type_ : String := ""
  deriving DecidableEq, Repr

instance : Inhabited Nutrient := ⟨{}⟩

/-- Derivation, foods.go lines 78-80. -/
structure Derivation where
  Code : String := ""
  deriving DecidableEq, Repr

/-- NutrientData, foods.go lines 84-90.  The Derivation field is the nilable
pointer that fndds.go line 233 assigns. -/
structure NutrientData where
  Value : F32 := F32.zero
  Unit : String := ""
  Derivation : Option Derivation := none
  Nutrientno : Nat := 0
  Nutrient : String := ""
  deriving DecidableEq, Repr

/-- Modelled from the spec: the InputFood value object (sequence number,
description, unit, amount, weight, source reference code, portion
description).  Its Go declaration is absent from model/foods.go; the field
names are the ones fndds.go lines 304-313 assign. -/
structure InputFood where
  SeqNo : Int := 0
  Unit : String := ""
  SrCode : Int := 0
  Description : String := ""
  Amount : F32 := F32.zero
  Portion : String := ""
  PortionDescription : String := ""
  Weight : F32 := F32.zero
  deriving DecidableEq, Repr

/-- Food, foods.go lines 44-56, with the InputFoods collection that
fndds.go line 273 assigns. -/
structure Food where
  UpdatedAt : Time := Time.zero
  FdcID : String := ""
  Upc : String := ""
  Description : String := ""
  Source : String := ""
  PublicationDate : Time := Time.zero
  Ingredients : String := ""
  Manufacturer : String := ""
  Servings : List Serving := []
  Nutrients : List NutrientData := []
  InputFoods : List InputFood := []
  Type_ : String := ""
  deriving DecidableEq, Repr

instance : Inhabited Food := ⟨{}⟩

/-- Modelled from the spec: RunCounters, the ingest.Counts tally whose
declaration is absent (counts of primary, serving, nutrient and other rows). -/
structure Counts where
  Foods : Nat := 0
  Servings : Nat := 0
  Nutrients : Nat := 0
  Other : Nat := 0
  deriving DecidableEq, Repr

/-- Library functions used by the ingest, taken as parameters:
strconv.ParseFloat(s, bitSize), strconv.ParseInt(s, base, bitSize), time.Parse
with the layout 2006-01-02 (none is a parse error, for which time.Parse returns
the zero Time), and the json.Unmarshal that a bucket Get runs on a stored
document: Unmarshal doc f is the target f after doc was decoded into it. -/
structure Lib where
  ParseFloat : String → Nat → FloatParse
  ParseInt : String → Nat → Nat → IntParse
  timeParse : String → Option Time
  Unmarshal : Food → Food → Food

/-! ## Datastore (ds/ds.go) -/

/-- Contents of the bucket behind DS.Conn: documents by key. -/
abbrev Store := String → Option Food

/-- Whether json.Marshal encodes the aggregate: it refuses a float that is an
infinity or NaN, and the aggregate has floats only in its three collections. -/
def encodable (r : Food) : Bool :=
  r.Servings.all (fun x => x.Weight.isFinite && x.Servingamount.isFinite) &&
  r.Nutrients.all (fun x => x.Value.isFinite) &&
  r.InputFoods.all (fun x => x.Amount.isFinite && x.Weight.isFinite)

/-- DS.Get, ds.go lines 45-54, for a bucket connection.  The bucket decodes a
stored document into the target the caller passed, so what the target held
before is kept wherever the decoder does not assign, and nil is returned; for a
missing key the target is left as it was and the error is returned. -/
def DS.Get (lib : Lib) (conn : Store) (q : String) (f : Food) : Food × Option Error :=
  match conn q with
  | some doc => (lib.Unmarshal doc f, none)
  | none => (f, some "key not found")

/-- DS.Update, ds.go lines 134-141, for a bucket connection: an Upsert, which
stores r under id whether or not the key exists.  The bucket encodes r first;
when it cannot, nothing is stored, and line 137 drops the error. -/
def DS.Update (conn : Store) (id : String) (r : Food) : Store :=
  if encodable r then fun k => if k = id then some r else conn k else conn

/-- The empty bucket. -/
def Store.empty : Store := fun _ => none

/-! ## Observable events of a worker -/

/-- Effects of a worker, in execution order: a record read, the calls of
dc.Get and dc.Update with their arguments, a counter increment, a subrecord
appended, a value sent on the result channel. -/
inductive Event where
  | read
  | get (k : String)
  | update (k : String) (f : Food)
  | count
  | decode
  | send (e : Option Error)
  deriving DecidableEq, Repr

/-- The values sent on the result channel, in order. -/
def sends : List Event → List (Option Error)
  | [] => []
  | .send e :: l => e :: sends l
  | _ :: l => sends l

/-- The store writes (key and document), in order. -/
def updates : List Event → List (String × Food)
  | [] => []
  | .update k f :: l => (k, f) :: updates l
  | _ :: l => updates l

/-- An opened CSV file as seen through os.Open and successive r.Read calls:
the error of os.Open, the records returned, and what ends the stream
(none for io.EOF, some e for a read error). -/
structure CsvFile where
  openErr : Option Error := none
  records : List Row := []
  readErr : Option Error := none

/-- Local variables of a join worker together with the shared state it acts
on: the key cursor cid, the in-memory aggregate food, the accumulator, the
store, the package-level counters and the events so far. -/
structure JoinState (α : Type) where
  cid : String := ""
  food : Food := {}
  acc : List α := []
  store : Store
  cnts : Counts
  log : List Event := []

/-! ## servings (fndds.go lines 111-167) -/

/-- Lines 154-162: decode one record into a Serving.  A parse error is only
logged (the log line reads record[0] and record[3]). -/
def servingsDecode (lib : Lib) (record : Row) : Option Serving := do
  let a := lib.ParseFloat (← record[7]?) 32
  if a.failed then
    let _ ← record[0]?
    let _ ← record[3]?
  some { Nutrientbasis := "g", Description := (← record[5]?), Servingamount := a.value }

/-- Lines 136-162: the loop body for one record; none is an index-out-of-range
panic. -/
def servingsRow (lib : Lib) (st : JoinState Serving) (record : Row) :
    Option (JoinState Serving) := do
  let id ← record[1]?
  let st :=
    if st.cid ≠ id then
      let st :=
        if st.cid ≠ "" then
          let food := { st.food with Servings := st.acc }
          { st with food := food, store := DS.Update st.store st.cid food,
                    log := st.log ++ [Event.update st.cid food] }
        else st
      { st with cid := id, food := (DS.Get lib st.store id st.food).1, acc := [],
                log := st.log ++ [Event.get id] }
    else st
  let st := { st with cnts := { st.cnts with Servings := st.cnts.Servings + 1 },
                      log := st.log ++ [Event.count] }
  let s ← servingsDecode lib record
  some { st with acc := st.acc ++ [s], log := st.log ++ [Event.decode] }

/-- Lines 126-164: the read loop over the records the reader returns. -/
def servingsLoop (lib : Lib) : JoinState Serving → List Row → Option (JoinState Serving)
  | st, [] => some st
  | st, record :: rest => do
    let st ← servingsRow lib { st with log := st.log ++ [Event.read] } record
    servingsLoop lib st rest

/-- The servings worker, lines 111-167. -/
def servings (lib : Lib) (file : CsvFile) (dc : Store) (cnts : Counts) :
    Option (JoinState Serving) :=
  let st0 : JoinState Serving := { store := dc, cnts := cnts }
  match file.openErr with
  | some err => some { st0 with log := [Event.send (some err)] }
  | none => do
    let st ← servingsLoop lib st0 file.records
    match file.readErr with
    | some err => some { st with log := st.log ++ [Event.send (some err)] }
    | none => some { st with log := st.log ++ [Event.send none] }

/-! ## nutrients (fndds.go lines 170-242) -/

/-- The untyped value a GetDictionary call fills in: the rows of one
dictionary page. -/
abbrev Dict := List Nutrient

/-- Dictionary access, taken as parameters because neither declaration is in
the source tree: dc.GetDictionary(bucket, doctype, offset, limit, &il), giving
the fetched rows or an error, and dictionaries.InitNutrientInfoMap, giving the
nutrient map keyed by nutrient number. -/
structure DictEnv where
  GetDictionary : String → String → Nat → Nat → Except Error Dict
  InitNutrientInfoMap : Dict → Nat → Option Nutrient

/-- Lines 217-234: decode one record into a NutrientData.  Parse errors are
only logged; the log lines read record[0], record[4] and record[0], record[1].
A key missing from the map yields the zero Nutrient. -/
def nutrientsDecode (lib : Lib) (nutmap : Nat → Option Nutrient) (record : Row) :
    Option NutrientData := do
  let w := lib.ParseFloat (← record[3]?) 32
  if w.failed then
    let _ ← record[0]?
    let _ ← record[4]?
  let v := lib.ParseInt (← record[2]?) 0 32
  if v.failed then
    let _ ← record[0]?
    let _ ← record[1]?
  let nut : Nutrient := (nutmap (toUint (v.value 32))).getD {}
  some { Nutrientno := nut.Nutrientno, Value := w.value, Nutrient := nut.Name,
         Unit := nut.Unit, Derivation := none }

/-- A nutrients record wide enough for every index of the loop body: columns 0
to 3 always, and column 4 when the value fails to parse, since the log line of
line 219 prints record[4]. -/
def nutrientsReadable (lib : Lib) (record : Row) : Prop :=
  4 ≤ record.length ∧
    ((lib.ParseFloat (record.getD 3 "") 32).failed = true → 5 ≤ record.length)

instance (lib : Lib) (record : Row) : Decidable (nutrientsReadable lib record) := by
  unfold nutrientsReadable
  infer_instance

/-- Lines 206-237: the loop body for one record. -/
def nutrientsRow (lib : Lib) (nutmap : Nat → Option Nutrient) (st : JoinState NutrientData)
    (record : Row) : Option (JoinState NutrientData) := do
  let id ← record[1]?
  let st :=
    if st.cid ≠ id then
      let st :=
        if st.cid ≠ "" then
          let food := { st.food with Nutrients := st.acc }
          { st with food := food, store := DS.Update st.store st.cid food,
                    log := st.log ++ [Event.update st.cid food] }
        else st
      { st with cid := id, food := (DS.Get lib st.store id st.food).1, acc := [],
                log := st.log ++ [Event.get id] }
    else st
  let st := { st with cnts := { st.cnts with Nutrients := st.cnts.Nutrients + 1 },
                      log := st.log ++ [Event.count] }
  let n ← nutrientsDecode lib nutmap record
  some { st with acc := st.acc ++ [n], log := st.log ++ [Event.decode] }

/-- Lines 196-239: the read loop. -/
def nutrientsLoop (lib : Lib) (nutmap : Nat → Option Nutrient) :
    JoinState NutrientData → List Row → Option (JoinState NutrientData)
  | st, [] => some st
  | st, record :: rest => do
    let st ← nutrientsRow lib nutmap { st with log := st.log ++ [Event.read] } record
    nutrientsLoop lib nutmap st rest

/-- The nutrients worker, lines 170-242.  The value sent at line 240 is the
function-level err assigned by os.Open at line 173. -/
def nutrients (lib : Lib) (env : DictEnv) (file : CsvFile) (dc : Store) (cnts : Counts) :
    Option (JoinState NutrientData) :=
  let st0 : JoinState NutrientData := { store := dc, cnts := cnts }
  let err := file.openErr
  if err.isSome then some { st0 with log := [Event.send err] }
  else
    match env.GetDictionary "gnutdata" "NUT" 0 500 with
    | .error e => some { st0 with log := [Event.send (some e)] }
    | .ok il =>
      let nutmap := env.InitNutrientInfoMap il
      match env.GetDictionary "gnutdata" "DERV" 0 500 with
      | .error e => some { st0 with log := [Event.send (some e)] }
      | .ok _ => do
        let st ← nutrientsLoop lib nutmap st0 file.records
        match file.readErr with
        | some e => some { st with log := st.log ++ [Event.send (some e)] }
        | none => some { st with log := st.log ++ [Event.send err] }

/-! ## inputFoods (fndds.go lines 245-318) -/

/-- Lines 288-313: decode one record into an InputFood.  Parse errors are only
logged. -/
def inputFoodsDecode (lib : Lib) (record : Row) : Option InputFood := do
  let a := lib.ParseFloat (← record[4]?) 32
  if a.failed then
    let _ ← record[0]?
    let _ ← record[3]?
  let w := lib.ParseFloat (← record[10]?) 16
  if w.failed then
    let _ ← record[0]?
    let _ ← record[10]?
  let c := lib.ParseInt (← record[5]?) 0 32
  if c.failed then
    let _ ← record[0]?
    let _ ← record[5]?
  let seq := lib.ParseInt (← record[3]?) 0 32
  if seq.failed then
    let _ ← record[0]?
    let _ ← record[3]?
  some { SeqNo := seq.value 32, Unit := (← record[7]?), SrCode := c.value 32,
         Description := (← record[6]?), Amount := a.value, Portion := (← record[8]?),
         PortionDescription := (← record[9]?), Weight := w.value }

/-- Lines 270-313: the loop body for one record. -/
def inputFoodsRow (lib : Lib) (st : JoinState InputFood) (record : Row) :
    Option (JoinState InputFood) := do
  let id ← record[1]?
  let st :=
    if st.cid ≠ id then
      let st :=
        if st.cid ≠ "" then
          let food := { st.food with InputFoods := st.acc }
          { st with food := food, store := DS.Update st.store st.cid food,
                    log := st.log ++ [Event.update st.cid food] }
        else st
      { st with cid := id, food := (DS.Get lib st.store id st.food).1, acc := [],
                log := st.log ++ [Event.get id] }
    else st
  let st := { st with cnts := { st.cnts with Other := st.cnts.Other + 1 },
                      log := st.log ++ [Event.count] }
  let x ← inputFoodsDecode lib record
  some { st with acc := st.acc ++ [x], log := st.log ++ [Event.decode] }

/-- Lines 260-315: the read loop. -/
def inputFoodsLoop (lib : Lib) : JoinState InputFood → List Row → Option (JoinState InputFood)
  | st, [] => some st
  | st, record :: rest => do
    let st ← inputFoodsRow lib { st with log := st.log ++ [Event.read] } record
    inputFoodsLoop lib st rest

/-- The inputFoods worker, lines 245-318. -/
def inputFoods (lib : Lib) (file : CsvFile) (dc : Store) (cnts : Counts) :
    Option (JoinState InputFood) :=
  let st0 : JoinState InputFood := { store := dc, cnts := cnts }
  match file.openErr with
  | some err => some { st0 with log := [Event.send (some err)] }
  | none => do
    let st ← inputFoodsLoop lib st0 file.records
    match file.readErr with
    | some err => some { st with log := st.log ++ [Event.send (some err)] }
    | none => some { st with log := st.log ++ [Event.send none] }

/-! ## foods (fndds.go lines 75-108) -/

/-- The store and counters the seed loader acts on. -/
structure SeedState where
  store : Store
  cnts : Counts

/-- Lines 90-105: the loop body for one record.  A date that does not parse is
logged and leaves pubdate at the zero Time. -/
def foodsRow (lib : Lib) (t : String) (st : SeedState) (record : Row) : Option SeedState := do
  let cnts := { st.cnts with Foods := st.cnts.Foods + 1 }
  let pubdate := (lib.timeParse (← record[4]?)).getD Time.zero
  let id ← record[0]?
  some { store := DS.Update st.store id
                    { FdcID := id, Description := (← record[2]?), PublicationDate := pubdate,
                      Source := t, Type_ := "FOOD" },
         cnts := cnts }

/-- Lines 82-106: the read loop. -/
def foodsLoop (lib : Lib) (t : String) : SeedState → List Row → Option SeedState
  | st, [] => some st
  | st, record :: rest => do
    let st ← foodsRow lib t st record
    foodsLoop lib t st rest

/-- The seed loader, lines 75-108: the returned error with the store and the
counters it leaves.  The err returned at line 107 is the function-level one
assigned by os.Open at line 77. -/
def foods (lib : Lib) (file : CsvFile) (dc : Store) (cnts : Counts) (t : String) :
    Option (Option Error × Store × Counts) :=
  let err := file.openErr
  if err.isSome then some (err, dc, cnts)
  else do
    let st ← foodsLoop lib t { store := dc, cnts := cnts } file.records
    match file.readErr with
    | some e => some (some e, st.store, st.cnts)
    | none => some (err, st.store, st.cnts)

/-! ## ProcessFiles (fndds.go lines 34-74) -/

/-- Fndds, lines 25-27. -/
structure Fndds where
  Doctype : String

/-- The three result channels of lines 35-37. -/
inductive Chan where
  | rcs
  | rcn
  | rci
  deriving DecidableEq, Repr

/-- The text the verb %v prints for an error value. -/
def fmtV : Option Error → String
  | some e => e
  | none => "<nil>"

/-- Lines 47-69: the line printed by the select case that receives value e on
channel c.  The argument err is the package-level variable of line 21, which
the nutrients case tests at line 56. -/
def selectCase (err : Option Error) (c : Chan) (e : Option Error) : String :=
  match c with
  | .rcs =>
    if e ≠ none then "Error from servings: " ++ fmtV e ++ "\n"
    else "Servings ingest complete.\n"
  | .rcn =>
    if err ≠ none then "Error from nutrients: " ++ fmtV e ++ "\n"
    else "Nutrient ingest complete.\n"
  | .rci =>
    if e ≠ none then "Error from foodInput " ++ fmtV e ++ "\n"
    else "Food input complete.\n"

/-- Lines 46-70: the receive loop, run for the given number of iterations over
the signals in their order of arrival; none when the loop would block for want
of a signal. -/
def fanIn (err : Option Error) : Nat → List (Chan × Option Error) → List String →
    Option (List String)
  | 0, _, out => some out
  | _ + 1, [], _ => none
  | n + 1, (c, e) :: rest, out => fanIn err n rest (out ++ [selectCase err c e])

/-- ProcessFiles, lines 34-74: the lines printed and the error returned, given
the primary extract and the completion signals in their order of arrival.
A failed seed load ends the process at line 40 (none).  The store effects of
the three concurrent workers are those of servings, nutrients and inputFoods
and are not interleaved here. -/
def ProcessFiles (lib : Lib) (p : Fndds) (food : CsvFile) (dc : Store) (cnts : Counts)
    (arrivals : List (Chan × Option Error)) : Option (List String × Option Error) := do
  let (err, _, _) ← foods lib food dc cnts p.Doctype
  if err ≠ none then none
  else
    let out ← fanIn err 3 arrivals []
    some (out, err)

/-! ## The grouping protocol shared by the three workers -/

/-- What the three join workers are built from: the library they call, the
subfield they replace, the counter they increment and their record decoder. -/
structure JoinSpec (α : Type) where
  lib : Lib
  setField : Food → List α → Food
  bump : Counts → Counts
  decode : Row → Option α

/-- The flush at a key boundary: when the cursor is not empty, the subfield of
the in-memory aggregate is replaced by the accumulator and the aggregate is
written under the cursor. -/
def joinFlush {α : Type} (J : JoinSpec α) (st : JoinState α) : JoinState α :=
  if st.cid ≠ "" then
    let food := J.setField st.food st.acc
    { st with food := food, store := DS.Update st.store st.cid food,
              log := st.log ++ [Event.update st.cid food] }
  else st

/-- The key test: on a new key, flush, move the cursor, fetch the aggregate of
the new key into the in-memory aggregate (the error of Get is dropped) and
clear the accumulator. -/
def joinBoundary {α : Type} (J : JoinSpec α) (st : JoinState α) (id : String) : JoinState α :=
  if st.cid ≠ id then
    let st := joinFlush J st
    { st with cid := id, food := (DS.Get J.lib st.store id st.food).1, acc := [],
              log := st.log ++ [Event.get id] }
  else st

/-- The state after a record with key id and decoded subrecord x. -/
def joinNext {α : Type} (J : JoinSpec α) (st : JoinState α) (id : String) (x : α) :
    JoinState α :=
  let st := joinBoundary J st id
  let st := { st with cnts := J.bump st.cnts, log := st.log ++ [Event.count] }
  { st with acc := st.acc ++ [x], log := st.log ++ [Event.decode] }

/-- The loop body of a join worker, in the shape of the three source loops. -/
def joinRow {α : Type} (J : JoinSpec α) (st : JoinState α) (record : Row) :
    Option (JoinState α) :=
  (record[1]?).bind fun id => (J.decode record).map fun x => joinNext J st id x

/-- The read loop of a join worker. -/
def joinLoop {α : Type} (J : JoinSpec α) : JoinState α → List Row → Option (JoinState α)
  | st, [] => some st
  | st, record :: rest =>
    (joinRow J { st with log := st.log ++ [Event.read] } record).bind fun st =>
      joinLoop J st rest

/-- The servings worker as an instance of the protocol. -/
def servingsSpec (lib : Lib) : JoinSpec Serving where
  lib := lib
  setField := fun f s => { f with Servings := s }
  bump := fun c => { c with Servings := c.Servings + 1 }
  decode := servingsDecode lib

/-- The nutrients worker as an instance of the protocol. -/
def nutrientsSpec (lib : Lib) (nutmap : Nat → Option Nutrient) : JoinSpec NutrientData where
  lib := lib
  setField := fun f n => { f with Nutrients := n }
  bump := fun c => { c with Nutrients := c.Nutrients + 1 }
  decode := nutrientsDecode lib nutmap

/-- The inputFoods worker as an instance of the protocol. -/
def inputFoodsSpec (lib : Lib) : JoinSpec InputFood where
  lib := lib
  setField := fun f x => { f with InputFoods := x }
  bump := fun c => { c with Other := c.Other + 1 }
  decode := inputFoodsDecode lib

/-- Column 1 of a record, the foreign key ("" when absent). -/
def keyOf (record : Row) : String := record.getD 1 ""

/-- The number of adjacent pairs of keys that make a worker flush: the left
key differs from the right one and is not the empty cursor. -/
def boundaries : List String → Nat
  | [] => 0
  | [_] => 0
  | a :: b :: rest => (if a ≠ b ∧ a ≠ "" then 1 else 0) + boundaries (b :: rest)

/-- The number of maximal contiguous runs of equal keys. -/
def runCount : List String → Nat
  | [] => 0
  | [_] => 1
  | a :: b :: rest => (if a ≠ b then 1 else 0) + runCount (b :: rest)

/-! ## A concrete reading of the library functions

The theorems below hold for every Lib.  The closed examples need one; goLib
follows the documented behaviour of strconv and time on plain decimal input,
and of encoding/json on the aggregate.  Hexadecimal mantissas and
digit-separating underscores, which newer Go releases also accept, are outside
this reading and count as malformed. -/

/-- The value of a digit or letter in bases up to 36. -/
def digitOf (c : Char) : Option Nat :=
  if '0' ≤ c ∧ c ≤ '9' then some (c.toNat - '0'.toNat)
  else if 'a' ≤ c ∧ c ≤ 'z' then some (c.toNat - 'a'.toNat + 10)
  else if 'A' ≤ c ∧ c ≤ 'Z' then some (c.toNat - 'A'.toNat + 10)
  else none

/-- The longest leading run of decimal digits and what follows it. -/
def spanDigits : List Char → List Nat × List Char
  | [] => ([], [])
  | c :: cs =>
    if '0' ≤ c ∧ c ≤ '9' then
      ((c.toNat - '0'.toNat) :: (spanDigits cs).1, (spanDigits cs).2)
    else ([], c :: cs)

/-- The number written by a sequence of decimal digits. -/
def digitsVal (ds : List Nat) : Nat := ds.foldl (fun n d => 10 * n + d) 0

/-- An optional sign and what follows it. -/
def takeSign : List Char → Bool × List Char
  | '+' :: cs => (false, cs)
  | '-' :: cs => (true, cs)
  | cs => (false, cs)

/-- A decimal exponent part: empty, or e or E, an optional sign and at least
one digit up to the end of the input. -/
def scanExponent : List Char → Option Int
  | [] => some 0
  | c :: cs =>
    if c = 'e' ∨ c = 'E' then
      let (neg, r) := takeSign cs
      let (ds, r) := spanDigits r
      if ds = [] ∨ r ≠ [] then none
      else some (if neg then - (digitsVal ds : Int) else (digitsVal ds : Int))
    else none

/-- A decimal floating-point literal: sign, mantissa digits and decimal
exponent, so that the literal denotes (-1)^neg * mant * 10^exp10. -/
def scanDecimal (cs : List Char) : Option (Bool × Nat × Int) :=
  let (neg, r) := takeSign cs
  let (ip, r) := spanDigits r
  let (fp, r) := match r with
    | '.' :: r1 => spanDigits r1
    | _ => ([], r)
  if ip = [] ∧ fp = [] then none
  else
    match scanExponent r with
    | none => none
    | some e => some (neg, digitsVal (ip ++ fp), e - (fp.length : Int))

/-- The least magnitude that rounds beyond the largest float64,
2^1024 - 2^970, written as 2^970 * (2^54 - 1) with small exponents. -/
def overflow64 : Nat := 2 ^ 256 * 2 ^ 256 * 2 ^ 256 * 2 ^ 202 * (2 ^ 54 - 1)

/-- The words strconv reads as infinities and NaN, whatever the case of
their letters. -/
def scanSpecial (s : String) : Option F32 :=
  let l := s.toList.map Char.toLower
  if l = ['i', 'n', 'f'] ∨ l = ['+', 'i', 'n', 'f'] ∨
      l = ['i', 'n', 'f', 'i', 'n', 'i', 't', 'y'] ∨
      l = ['+', 'i', 'n', 'f', 'i', 'n', 'i', 't', 'y'] then some (F32.inf false)
  else if l = ['-', 'i', 'n', 'f'] ∨ l = ['-', 'i', 'n', 'f', 'i', 'n', 'i', 't', 'y'] then
    some (F32.inf true)
  else if l = ['n', 'a', 'n'] then some F32.nan
  else none

/-- Reading of strconv.ParseFloat: bit size 32 parses a float32, every other
bit size a float64. -/
def goParseFloat (s : String) (bitSize : Nat) : FloatParse :=
  match scanSpecial s with
  | some v => .ok v
  | none =>
    match scanDecimal s.toList with
    | none => .malformed
    | some (neg, mant, e) =>
      if bitSize = 32 then
        if reaches mant e overflow32 then .outOfRange neg else .ok (F32.near32 neg mant e)
      else
        if reaches mant e overflow64 then .outOfRange neg else .ok (F32.via64 neg mant e)

/-- Outcome of scanning the digits of an unsigned integer. -/
inductive UintScan where
  | done (n : Nat)
  | bad
  | tooBig
  deriving DecidableEq, Repr

/-- The digit loop of strconv.ParseUint: left to right, stopping at the first
invalid digit or at the first step that exceeds maxVal. -/
def scanUint (base maxVal : Nat) : Nat → List Char → UintScan
  | n, [] => .done n
  | n, c :: cs =>
    match digitOf c with
    | none => .bad
    | some d =>
      if base ≤ d then .bad
      else if maxVal < n * base + d then .tooBig
      else scanUint base maxVal (n * base + d) cs

/-- The base selected by a prefix when the base argument is 0, and the digits
after the prefix. -/
def detectBase : List Char → Nat × List Char
  | '0' :: c :: d :: cs =>
    if c = 'x' ∨ c = 'X' then (16, d :: cs)
    else if c = 'b' ∨ c = 'B' then (2, d :: cs)
    else if c = 'o' ∨ c = 'O' then (8, d :: cs)
    else (8, c :: d :: cs)
  | '0' :: cs => (8, cs)
  | cs => (10, cs)

/-- Reading of strconv.ParseInt. -/
def goParseInt (s : String) (base bitSize : Nat) : IntParse :=
  let bits := if bitSize = 0 then 64 else bitSize
  match s.toList with
  | [] => .malformed
  | cs =>
    let (neg, r) := takeSign cs
    if r = [] then .malformed
    else
      let (b, ds) := if base = 0 then detectBase r else (base, r)
      if b < 2 ∨ 36 < b then .malformed
      else
        match scanUint b (2 ^ bits - 1) 0 ds with
        | .bad => .malformed
        | .tooBig => .outOfRange neg
        | .done n =>
          if neg then
            if 2 ^ (bits - 1) < n then .outOfRange true else .ok (- (n : Int))
          else
            if 2 ^ (bits - 1) ≤ n then .outOfRange false else .ok (n : Int)

/-- The number of days of a month of the proleptic Gregorian calendar. -/
def daysIn (month year : Nat) : Nat :=
  if month = 2 then
    if year % 4 = 0 ∧ (year % 100 ≠ 0 ∨ year % 400 = 0) then 29 else 28
  else if month = 4 ∨ month = 6 ∨ month = 9 ∨ month = 11 then 30
  else 31

/-- Reading of time.Parse with the layout 2006-01-02: four year digits, two
month digits and two day digits separated by hyphens, naming a real date. -/
def goTimeParse (s : String) : Option Time :=
  match s.toList with
  | [y1, y2, y3, y4, '-', m1, m2, '-', d1, d2] =>
    if [y1, y2, y3, y4, m1, m2, d1, d2].all (fun c => decide ('0' ≤ c ∧ c ≤ '9')) then
      let d := fun (c : Char) => c.toNat - '0'.toNat
      let year := digitsVal [d y1, d y2, d y3, d y4]
      let month := digitsVal [d m1, d m2]
      let day := digitsVal [d d1, d d2]
      if 1 ≤ month ∧ month ≤ 12 ∧ 1 ≤ day ∧ day ≤ daysIn month year then
        some ⟨year, month, day⟩
      else none
    else none
  | _ => none

/-- One element of the servingSizes array decoded over the element t already
in the target slice: the decoder assigns the keys present, and servingState,
which carries omitempty, is absent when empty. -/
def mergeServing (doc t : Serving) : Serving :=
  { doc with Servingstate := if doc.Servingstate = "" then t.Servingstate
                             else doc.Servingstate }

/-- A servingSizes array decoded over the target slice: element by element
over the elements already there, fresh beyond them, cut to the length of
the array. -/
def mergeServings : List Serving → List Serving → List Serving
  | [], _ => []
  | d :: ds, [] => d :: ds
  | d :: ds, t :: ts => mergeServing d t :: mergeServings ds ts

/-- Reading of json.Unmarshal of a stored aggregate into the target f.  Every
key present in the document is assigned.  servingSizes and nutrients carry
omitempty (foods.go lines 53-54), so an empty collection is absent from the
document and the target keeps its own.  The InputFoods field, whose
declaration and tag are not in the source tree, is read like its two sibling
collections, and the elements of nutrients and InputFoods as assigned whole.
Slice capacity beyond the length of the target is not represented. -/
def goUnmarshal (doc f : Food) : Food :=
  { doc with
    Servings := if doc.Servings = [] then f.Servings
                else mergeServings doc.Servings f.Servings,
    Nutrients := if doc.Nutrients = [] then f.Nutrients else doc.Nutrients,
    InputFoods := if doc.InputFoods = [] then f.InputFoods else doc.InputFoods }

/-- The library functions as read above. -/
def goLib : Lib := ⟨goParseFloat, goParseInt, goTimeParse, goUnmarshal⟩

/-! ## Sample extracts and stores -/

/-- A food.csv record: fdc_id, data_type, description, food_category_id,
publication_date. -/
def foodRow (id desc date : String) : Row := [id, "survey_fndds_food", desc, "", date]

/-- A food_portion.csv record with the key in column 1, the description in
column 5 and the amount in column 7. -/
def portionRow (id key desc amount : String) : Row := [id, key, "", "", "", desc, "", amount]

/-- A food_nutrient.csv record: id, fdc_id, nutrient_id, amount, data_points. -/
def nutrientRow (id key no value : String) : Row := [id, key, no, value, ""]

/-- An input_food.csv record with the key in column 1, the sequence number in
column 3, the amount in column 4 and the source code in column 5. -/
def inputRow (id key seq amount code : String) : Row :=
  [id, key, "", seq, amount, code, "flour", "g", "1", "cup", "125"]

/-- The seeded aggregate of key F1. -/
def foodF1 : Food := { FdcID := "F1", Description := "apple", Source := "FNDDS", Type_ := "FOOD" }

/-- The seeded aggregate of key F2. -/
def foodF2 : Food := { FdcID := "F2", Description := "bread", Source := "FNDDS", Type_ := "FOOD" }

/-- A store holding the aggregates of F1 and F2 and nothing else. -/
def seeded : Store := DS.Update (DS.Update Store.empty "F1" foodF1) "F2" foodF2

/-- Modelled from the spec: dictionaries.InitNutrientInfoMap, absent from the
source tree, as the mapping keyed by nutrient number over the fetched rows. -/
def initNutrientInfoMap (il : Dict) (no : Nat) : Option Nutrient :=
  il.find? fun n => n.Nutrientno = no

/-- A dictionary with the single nutrient 203 (protein), whose fetches succeed. -/
def sampleDict : DictEnv where
  GetDictionary := fun _ _ _ _ => .ok [{ Nutrientno := 203, Name := "Protein", Unit := "g" }]
  InitNutrientInfoMap := initNutrientInfoMap

/-- A dictionary whose fetches fail. -/
def brokenDict : DictEnv where
  GetDictionary := fun _ _ _ _ => .error "dictionary fetch failed"
  InitNutrientInfoMap := initNutrientInfoMap

/-- The servings worker about to read its first record against the seeded
store. -/
def startServings : JoinState Serving := { store := seeded, cnts := {} }

/-- The nutrients worker about to read its first record against the seeded
store. -/
def startNutrients : JoinState NutrientData := { store := seeded, cnts := {} }

/-- A servings record of key F2. -/
def rowF2 : Row := portionRow "3" "F2" "slice" "2"

/-- A servings record whose key FX has no aggregate in the seeded store. -/
def rowFX : Row := portionRow "9" "FX" "cup" "3"

/-- The aggregate of F1 holding one nutrient measurement. -/
def foodF1Protein : Food :=
  { foodF1 with
    Nutrients := [{ Nutrientno := 203, Nutrient := "Protein", Unit := "g",
                    Value := F32.near32 false 15 (-1) }] }

/-- A store holding F1 with a nutrient measurement and F2 with none. -/
def seededNutrients : Store :=
  DS.Update (DS.Update Store.empty "F1" foodF1Protein) "F2" foodF2

/-- The last record of an extract whose column 0 is id. -/
def lastRowOf (id : String) : List Row → Option Row
  | [] => none
  | r :: rest =>
    match lastRowOf id rest with
    | some q => some q
    | none => if r.getD 0 "" = id then some r else none

/-- A primary extract in which F1 occurs twice and the date of F2 does not
parse. -/
def primaryExtract : CsvFile :=
  { records := [foodRow "F1" "apple" "2020-01-15", foodRow "F2" "bread" "soon",
                foodRow "F1" "apple, raw" "2020-02-01"] }

/-- A nutrients extract of three records that is cut short by a read error. -/
def brokenExtract : CsvFile :=
  { records := [nutrientRow "1" "F1" "203" "1.5", nutrientRow "2" "F1" "x" "y",
                nutrientRow "3" "F2" "203" "9"],
    readErr := some "unexpected EOF" }


/-! ## Records and decoders -/

theorem getq (r : Row) (i : Nat) (h : i < r.length) : r[i]? = some (r.getD i "") := by
  simp [List.getD_eq_getElem?_getD, List.getElem?_eq_getElem h]

theorem keyOf_eq (r : Row) (h : 2 ≤ r.length) : r[1]? = some (keyOf r) :=
  getq r 1 (by omega)

theorem keyOf_of_get (r : Row) (id : String) (h : r[1]? = some id) : keyOf r = id := by
  simp [keyOf, List.getD_eq_getElem?_getD, h]

theorem servingsDecode_some (lib : Lib) (r : Row) (h : 8 ≤ r.length) :
    servingsDecode lib r = some
      { Nutrientbasis := "g", Description := r.getD 5 "",
        Servingamount := (lib.ParseFloat (r.getD 7 "") 32).value } := by
  have h0 := getq r 0 (by omega)
  have h3 := getq r 3 (by omega)
  have h5 := getq r 5 (by omega)
  have h7 := getq r 7 (by omega)
  unfold servingsDecode
  simp only [h0, h3, h5, h7, Option.bind_eq_bind, Option.some_bind, Option.pure_def]
  cases (lib.ParseFloat (r.getD 7 "") 32).failed <;> rfl

theorem nutrientsDecode_some (lib : Lib) (nutmap : Nat → Option Nutrient) (r : Row)
    (h : nutrientsReadable lib r) :
    nutrientsDecode lib nutmap r = some
      { Nutrientno :=
          ((nutmap (toUint ((lib.ParseInt (r.getD 2 "") 0 32).value 32))).getD {}).Nutrientno,
        Value := (lib.ParseFloat (r.getD 3 "") 32).value,
        Nutrient :=
          ((nutmap (toUint ((lib.ParseInt (r.getD 2 "") 0 32).value 32))).getD {}).Name,
        Unit := ((nutmap (toUint ((lib.ParseInt (r.getD 2 "") 0 32).value 32))).getD {}).Unit,
        Derivation := none } := by
  obtain ⟨hlen, hlog⟩ := h
  have h0 := getq r 0 (by omega)
  have h1 := getq r 1 (by omega)
  have h2 := getq r 2 (by omega)
  have h3 := getq r 3 (by omega)
  unfold nutrientsDecode
  simp only [h0, h1, h2, h3, Option.bind_eq_bind, Option.some_bind, Option.pure_def]
  cases hf : (lib.ParseFloat (r.getD 3 "") 32).failed with
  | false => cases (lib.ParseInt (r.getD 2 "") 0 32).failed <;> rfl
  | true =>
    have h4 := getq r 4 (hlog hf)
    simp only [h4, Option.some_bind, if_true]
    cases (lib.ParseInt (r.getD 2 "") 0 32).failed <;> rfl

theorem inputFoodsDecode_some (lib : Lib) (r : Row) (h : 11 ≤ r.length) :
    inputFoodsDecode lib r = some
      { SeqNo := (lib.ParseInt (r.getD 3 "") 0 32).value 32, Unit := r.getD 7 "",
        SrCode := (lib.ParseInt (r.getD 5 "") 0 32).value 32, Description := r.getD 6 "",
        Amount := (lib.ParseFloat (r.getD 4 "") 32).value, Portion := r.getD 8 "",
        PortionDescription := r.getD 9 "",
        Weight := (lib.ParseFloat (r.getD 10 "") 16).value } := by
  have h0 := getq r 0 (by omega)
  have h3 := getq r 3 (by omega)
  have h4 := getq r 4 (by omega)
  have h5 := getq r 5 (by omega)
  have h6 := getq r 6 (by omega)
  have h7 := getq r 7 (by omega)
  have h8 := getq r 8 (by omega)
  have h9 := getq r 9 (by omega)
  have h10 := getq r 10 (by omega)
  unfold inputFoodsDecode
  simp only [h0, h3, h4, h5, h6, h7, h8, h9, h10, Option.bind_eq_bind, Option.some_bind,
    Option.pure_def]
  cases (lib.ParseFloat (r.getD 4 "") 32).failed <;>
    cases (lib.ParseFloat (r.getD 10 "") 16).failed <;>
    cases (lib.ParseInt (r.getD 5 "") 0 32).failed <;>
    cases (lib.ParseInt (r.getD 3 "") 0 32).failed <;> rfl

/-! ## The three loops are instances of the protocol -/

theorem servingsRow_eq (lib : Lib) (st : JoinState Serving) (r : Row) :
    servingsRow lib st r = joinRow (servingsSpec lib) st r := by
  unfold servingsRow joinRow
  cases h1 : r[1]? with
  | none => rfl
  | some id =>
    cases h2 : servingsDecode lib r with
    | none => simp [servingsSpec, h2]
    | some x => simp [servingsSpec, h2, joinNext, joinBoundary, joinFlush]

theorem nutrientsRow_eq (lib : Lib) (nutmap : Nat → Option Nutrient)
    (st : JoinState NutrientData) (r : Row) :
    nutrientsRow lib nutmap st r = joinRow (nutrientsSpec lib nutmap) st r := by
  unfold nutrientsRow joinRow
  cases h1 : r[1]? with
  | none => rfl
  | some id =>
    cases h2 : nutrientsDecode lib nutmap r with
    | none => simp [nutrientsSpec, h2]
    | some x => simp [nutrientsSpec, h2, joinNext, joinBoundary, joinFlush]

theorem inputFoodsRow_eq (lib : Lib) (st : JoinState InputFood) (r : Row) :
    inputFoodsRow lib st r = joinRow (inputFoodsSpec lib) st r := by
  unfold inputFoodsRow joinRow
  cases h1 : r[1]? with
  | none => rfl
  | some id =>
    cases h2 : inputFoodsDecode lib r with
    | none => simp [inputFoodsSpec, h2]
    | some x => simp [inputFoodsSpec, h2, joinNext, joinBoundary, joinFlush]

theorem servingsLoop_eq (lib : Lib) (rows : List Row) (st : JoinState Serving) :
    servingsLoop lib st rows = joinLoop (servingsSpec lib) st rows := by
  induction rows generalizing st with
  | nil => rfl
  | cons r rs ih =>
    simp only [servingsLoop, joinLoop, servingsRow_eq, Option.bind_eq_bind]
    cases joinRow (servingsSpec lib) { st with log := st.log ++ [Event.read] } r with
    | none => rfl
    | some s => simp [ih]

theorem nutrientsLoop_eq (lib : Lib) (nutmap : Nat → Option Nutrient) (rows : List Row)
    (st : JoinState NutrientData) :
    nutrientsLoop lib nutmap st rows = joinLoop (nutrientsSpec lib nutmap) st rows := by
  induction rows generalizing st with
  | nil => rfl
  | cons r rs ih =>
    simp only [nutrientsLoop, joinLoop, nutrientsRow_eq, Option.bind_eq_bind]
    cases joinRow (nutrientsSpec lib nutmap) { st with log := st.log ++ [Event.read] } r with
    | none => rfl
    | some s => simp [ih]

theorem inputFoodsLoop_eq (lib : Lib) (rows : List Row) (st : JoinState InputFood) :
    inputFoodsLoop lib st rows = joinLoop (inputFoodsSpec lib) st rows := by
  induction rows generalizing st with
  | nil => rfl
  | cons r rs ih =>
    simp only [inputFoodsLoop, joinLoop, inputFoodsRow_eq, Option.bind_eq_bind]
    cases joinRow (inputFoodsSpec lib) { st with log := st.log ++ [Event.read] } r with
    | none => rfl
    | some s => simp [ih]

/-! ## Event projections -/

theorem sends_append (a b : List Event) : sends (a ++ b) = sends a ++ sends b := by
  induction a with
  | nil => rfl
  | cons e l ih => cases e <;> simp [sends, ih]

theorem updates_append (a b : List Event) : updates (a ++ b) = updates a ++ updates b := by
  induction a with
  | nil => rfl
  | cons e l ih => cases e <;> simp [updates, ih]

/-! ## The protocol -/

section Protocol

variable {α : Type} (J : JoinSpec α)

theorem joinRow_some (st : JoinState α) (r : Row) (id : String) (x : α)
    (h1 : r[1]? = some id) (h2 : J.decode r = some x) :
    joinRow J st r = some (joinNext J st id x) := by
  simp [joinRow, h1, h2]

theorem joinRow_inv (st st1 : JoinState α) (r : Row) (h : joinRow J st r = some st1) :
    ∃ x, r[1]? = some (keyOf r) ∧ J.decode r = some x ∧ st1 = joinNext J st (keyOf r) x := by
  unfold joinRow at h
  cases h1 : r[1]? with
  | none => simp [h1] at h
  | some id =>
    cases h2 : J.decode r with
    | none => simp [h1, h2] at h
    | some x =>
      simp [h1, h2] at h
      exact ⟨x, by rw [keyOf_of_get r id h1], rfl, by rw [keyOf_of_get r id h1, h]⟩

theorem joinLoop_append (a b : List Row) (st : JoinState α) :
    joinLoop J st (a ++ b) = (joinLoop J st a).bind fun s => joinLoop J s b := by
  induction a generalizing st with
  | nil => rfl
  | cons r rs ih =>
    simp only [List.cons_append, joinLoop]
    cases joinRow J { st with log := st.log ++ [Event.read] } r with
    | none => rfl
    | some s => simp [ih]

theorem joinLoop_total (rows : List Row) (st : JoinState α)
    (h : ∀ r ∈ rows, 2 ≤ r.length ∧ (J.decode r).isSome) :
    ∃ st1, joinLoop J st rows = some st1 := by
  induction rows generalizing st with
  | nil => exact ⟨st, rfl⟩
  | cons r rs ih =>
    obtain ⟨hl, hd⟩ := h r (List.mem_cons_self r rs)
    obtain ⟨x, hx⟩ := Option.isSome_iff_exists.mp hd
    simp only [joinLoop, joinRow_some J _ r (keyOf r) x (keyOf_eq r hl) hx, Option.some_bind]
    exact ih _ (fun q hq => h q (List.mem_cons_of_mem r hq))

theorem joinNext_cid (st : JoinState α) (id : String) (x : α) :
    (joinNext J st id x).cid = id := by
  unfold joinNext joinBoundary
  by_cases h : st.cid = id <;> simp [h]

theorem joinNext_sends (st : JoinState α) (id : String) (x : α) :
    sends (joinNext J st id x).log = sends st.log := by
  unfold joinNext joinBoundary joinFlush
  by_cases h : st.cid = id
  · simp [h, sends_append, sends]
  · by_cases h2 : st.cid = ""
    · have h3 : ¬ "" = id := fun e => h (h2.trans e)
      simp [h, h2, h3, sends_append, sends]
    · simp [h, h2, sends_append, sends]

theorem joinNext_updates_length (st : JoinState α) (id : String) (x : α) :
    (updates (joinNext J st id x).log).length =
      (updates st.log).length + (if st.cid ≠ id ∧ st.cid ≠ "" then 1 else 0) := by
  unfold joinNext joinBoundary joinFlush
  by_cases h : st.cid = id
  · simp [h, updates_append, updates]
  · by_cases h2 : st.cid = ""
    · have h3 : ¬ "" = id := fun e => h (h2.trans e)
      simp [h, h2, h3, updates_append, updates]
    · simp [h, h2, updates_append, updates]

theorem joinLoop_sends (rows : List Row) (st st1 : JoinState α)
    (h : joinLoop J st rows = some st1) : sends st1.log = sends st.log := by
  induction rows generalizing st with
  | nil => simp [joinLoop] at h; rw [← h]
  | cons r rs ih =>
    simp only [joinLoop] at h
    cases h1 : joinRow J { st with log := st.log ++ [Event.read] } r with
    | none => simp [h1] at h
    | some s =>
      simp [h1] at h
      obtain ⟨x, _, _, hs⟩ := joinRow_inv J _ s r h1
      rw [ih s h, hs, joinNext_sends]
      simp [sends_append, sends]

theorem joinLoop_updates_length (rows : List Row) (st st1 : JoinState α)
    (h : joinLoop J st rows = some st1) :
    (updates st1.log).length =
      (updates st.log).length + boundaries (st.cid :: rows.map keyOf) := by
  induction rows generalizing st with
  | nil => simp [joinLoop] at h; rw [← h]; simp [boundaries]
  | cons r rs ih =>
    simp only [joinLoop] at h
    cases h1 : joinRow J { st with log := st.log ++ [Event.read] } r with
    | none => simp [h1] at h
    | some s =>
      simp [h1] at h
      obtain ⟨x, _, _, hs⟩ := joinRow_inv J _ s r h1
      have hc : s.cid = keyOf r := by rw [hs, joinNext_cid]
      rw [ih s h, hs, joinNext_updates_length, ← hs, hc]
      simp [updates_append, updates, boundaries]
      omega

theorem joinNext_acc (st : JoinState α) (id : String) (x : α) :
    (joinNext J st id x).acc = (if st.cid = id then st.acc else []) ++ [x] := by
  unfold joinNext joinBoundary
  by_cases h : st.cid = id <;> simp [h]

theorem joinNext_cnts (st : JoinState α) (id : String) (x : α) :
    (joinNext J st id x).cnts = J.bump st.cnts := by
  unfold joinNext joinBoundary joinFlush
  by_cases h : st.cid = id
  · simp [h]
  · by_cases h2 : st.cid = ""
    · have h3 : ¬ "" = id := fun e => h (h2.trans e)
      simp [h, h2, h3]
    · simp [h, h2]

end Protocol


/-! ## Flush counts -/

theorem boundaries_empty_head (keys : List String) :
    boundaries ("" :: keys) = boundaries keys := by
  cases keys <;> simp [boundaries]

theorem boundaries_runCount (keys : List String) (h : ∀ k ∈ keys, k ≠ "") (hne : keys ≠ []) :
    boundaries keys + 1 = runCount keys := by
  induction keys with
  | nil => exact absurd rfl hne
  | cons a rest ih =>
    cases rest with
    | nil => simp [boundaries, runCount]
    | cons b rest2 =>
      have ha : a ≠ "" := h a (List.mem_cons_self a _)
      have ih2 := ih (fun k hk => h k (List.mem_cons_of_mem a hk)) (List.cons_ne_nil b rest2)
      simp only [boundaries, runCount]
      by_cases hab : a = b
      · simp [hab]; omega
      · simp [hab, ha]; omega

/-- The number of store Updates of a join loop started with an empty cursor:
one less than the number of runs, for records with non-empty keys. -/
theorem joinLoop_flush_count {α : Type} (J : JoinSpec α) (rows : List Row)
    (st st1 : JoinState α) (hc : st.cid = "") (hl : st.log = [])
    (hk : ∀ r ∈ rows, keyOf r ≠ "") (hne : rows ≠ [])
    (h : joinLoop J st rows = some st1) :
    (updates st1.log).length + 1 = runCount (rows.map keyOf) := by
  have h1 := joinLoop_updates_length J rows st st1 h
  rw [hc, boundaries_empty_head, hl] at h1
  have h2 := boundaries_runCount (rows.map keyOf)
    (by intro k hk2; obtain ⟨r, hr, rfl⟩ := List.mem_map.mp hk2; exact hk r hr)
    (by simpa using hne)
  simp [updates] at h1
  omega

/-- The servings worker performs one store Update less than there are runs. -/
theorem servings_flush_count (lib : Lib) (file : CsvFile) (dc : Store) (cnts : Counts)
    (hopen : file.openErr = none) (hne : file.records ≠ [])
    (hrows : ∀ r ∈ file.records, 8 ≤ r.length ∧ keyOf r ≠ "") :
    ∃ st, servings lib file dc cnts = some st ∧
      (updates st.log).length + 1 = runCount (file.records.map keyOf) := by
  obtain ⟨st1, h1⟩ := joinLoop_total (servingsSpec lib) file.records
    { store := dc, cnts := cnts }
    (fun r hr => ⟨by have := (hrows r hr).1; omega,
      by simp [servingsSpec, servingsDecode_some lib r (hrows r hr).1]⟩)
  have hcount := joinLoop_flush_count (servingsSpec lib) file.records _ st1 rfl rfl
    (fun r hr => (hrows r hr).2) hne h1
  unfold servings
  simp only [hopen, servingsLoop_eq, h1, Option.bind_eq_bind, Option.some_bind]
  cases file.readErr with
  | none => exact ⟨_, rfl, by simpa [updates_append, updates] using hcount⟩
  | some e => exact ⟨_, rfl, by simpa [updates_append, updates] using hcount⟩

/-- The inputFoods worker performs one store Update less than there are runs. -/
theorem inputFoods_flush_count (lib : Lib) (file : CsvFile) (dc : Store) (cnts : Counts)
    (hopen : file.openErr = none) (hne : file.records ≠ [])
    (hrows : ∀ r ∈ file.records, 11 ≤ r.length ∧ keyOf r ≠ "") :
    ∃ st, inputFoods lib file dc cnts = some st ∧
      (updates st.log).length + 1 = runCount (file.records.map keyOf) := by
  obtain ⟨st1, h1⟩ := joinLoop_total (inputFoodsSpec lib) file.records
    { store := dc, cnts := cnts }
    (fun r hr => ⟨by have := (hrows r hr).1; omega,
      by simp [inputFoodsSpec, inputFoodsDecode_some lib r (hrows r hr).1]⟩)
  have hcount := joinLoop_flush_count (inputFoodsSpec lib) file.records _ st1 rfl rfl
    (fun r hr => (hrows r hr).2) hne h1
  unfold inputFoods
  simp only [hopen, inputFoodsLoop_eq, h1, Option.bind_eq_bind, Option.some_bind]
  cases file.readErr with
  | none => exact ⟨_, rfl, by simpa [updates_append, updates] using hcount⟩
  | some e => exact ⟨_, rfl, by simpa [updates_append, updates] using hcount⟩

/-- The nutrients worker, once both dictionaries are fetched, performs one
store Update less than there are runs. -/
theorem nutrients_flush_count (lib : Lib) (env : DictEnv) (file : CsvFile) (dc : Store)
    (cnts : Counts) (il il2 : Dict)
    (hopen : file.openErr = none) (hne : file.records ≠ [])
    (hnut : env.GetDictionary "gnutdata" "NUT" 0 500 = .ok il)
    (hderv : env.GetDictionary "gnutdata" "DERV" 0 500 = .ok il2)
    (hrows : ∀ r ∈ file.records, nutrientsReadable lib r ∧ keyOf r ≠ "") :
    ∃ st, nutrients lib env file dc cnts = some st ∧
      (updates st.log).length + 1 = runCount (file.records.map keyOf) := by
  obtain ⟨st1, h1⟩ := joinLoop_total (nutrientsSpec lib (env.InitNutrientInfoMap il))
    file.records { store := dc, cnts := cnts }
    (fun r hr => ⟨by have := (hrows r hr).1.1; omega,
      by simp [nutrientsSpec, nutrientsDecode_some lib _ r (hrows r hr).1]⟩)
  have hcount := joinLoop_flush_count (nutrientsSpec lib (env.InitNutrientInfoMap il))
    file.records _ st1 rfl rfl (fun r hr => (hrows r hr).2) hne h1
  unfold nutrients
  simp only [hopen, hnut, hderv, nutrientsLoop_eq, h1, Option.bind_eq_bind, Option.some_bind,
    Option.isSome_none]
  cases file.readErr with
  | none => exact ⟨_, rfl, by simpa [updates_append, updates] using hcount⟩
  | some e => exact ⟨_, rfl, by simpa [updates_append, updates] using hcount⟩

/-! ## C1, C2: the flush at the end of the stream -/

/-- C1: each join worker, given an extract whose only group is F1, ends with
the signal nil without a single store Update: the last group is not written and
the store still holds the seed aggregate, although its row was counted. -/
theorem last_group_not_flushed :
    ((servings goLib { records := [portionRow "1" "F1" "cup" "0.5"] } seeded {}).map
        fun st => (sends st.log, updates st.log, st.store "F1", st.cnts.Servings)) =
      some ([none], [], some foodF1, 1) ∧
    ((nutrients goLib sampleDict { records := [nutrientRow "1" "F1" "203" "1.5"] } seeded {}).map
        fun st => (sends st.log, updates st.log, st.store "F1", st.cnts.Nutrients)) =
      some ([none], [], some foodF1, 1) ∧
    ((inputFoods goLib { records := [inputRow "1" "F1" "1" "2.0" "20081"] } seeded {}).map
        fun st => (sends st.log, updates st.log, st.store "F1", st.cnts.Other)) =
      some ([none], [], some foodF1, 1) :=
  ⟨by decide, by decide, by decide⟩

/-- C2: each join worker, given a sorted extract of two runs (F1, F1, F2),
performs one store Update, the one for F1, where the claim counts two. -/
theorem two_runs_one_flush :
    runCount (([portionRow "1" "F1" "cup" "0.5", portionRow "2" "F1" "tbsp" "1.0",
        portionRow "3" "F2" "slice" "2"]).map keyOf) = 2 ∧
    ((servings goLib { records := [portionRow "1" "F1" "cup" "0.5",
        portionRow "2" "F1" "tbsp" "1.0", portionRow "3" "F2" "slice" "2"] } seeded {}).map
        fun st => (updates st.log).map Prod.fst) = some ["F1"] ∧
    ((nutrients goLib sampleDict { records := [nutrientRow "1" "F1" "203" "1.5",
        nutrientRow "2" "F1" "204" "0.2", nutrientRow "3" "F2" "203" "9"] } seeded {}).map
        fun st => (updates st.log).map Prod.fst) = some ["F1"] ∧
    ((inputFoods goLib { records := [inputRow "1" "F1" "1" "2.0" "20081",
        inputRow "2" "F1" "2" "1.0" "1123", inputRow "3" "F2" "1" "3" "20081"] } seeded {}).map
        fun st => (updates st.log).map Prod.fst) = some ["F1"] :=
  ⟨by decide, by decide, by decide, by decide⟩


/-! ## C3: what a boundary flush writes -/

/-- C3: the store holds F1 with a nutrient measurement and F2 with none, and
the servings worker reads records of keys F1, F2, F3.  At the boundary after
the F2 record it writes F2 with the nutrient of F1 next to the serving of F2,
where the claim has the aggregate the store held for F2 with only Servings
replaced: dc.Get decoded the F2 document into the aggregate still holding F1.
On a second extract, F1 with amount 1e40 then F2, the Update of F1 carries an
infinite amount and the bucket stores nothing: F1 keeps its seed aggregate. -/
theorem stale_fields_written :
    seededNutrients "F2" = some foodF2 ∧ foodF2.Nutrients = [] ∧
    ((servings goLib { records := [portionRow "1" "F1" "cup" "0.5", rowF2,
        portionRow "4" "F3" "cup" "1"] } seededNutrients {}).map
        fun st => (updates st.log, st.store "F2")) =
      some ([("F1", { foodF1Protein with
                      Servings := [{ Nutrientbasis := "g", Description := "cup",
                                     Servingamount := F32.near32 false 5 (-1) }] }),
             ("F2", { foodF2 with
                      Servings := [{ Nutrientbasis := "g", Description := "slice",
                                     Servingamount := F32.near32 false 2 0 }],
                      Nutrients := foodF1Protein.Nutrients })],
            some { foodF2 with
                   Servings := [{ Nutrientbasis := "g", Description := "slice",
                                  Servingamount := F32.near32 false 2 0 }],
                   Nutrients := foodF1Protein.Nutrients }) ∧
    ((servings goLib { records := [portionRow "1" "F1" "cup" "1e40", rowF2] } seeded {}).map
        fun st => (updates st.log, st.store "F1")) =
      some ([("F1", { foodF1 with
                      Servings := [{ Nutrientbasis := "g", Description := "cup",
                                     Servingamount := F32.inf false }] })],
            some foodF1) :=
  ⟨by decide, by decide, by decide, by decide⟩

/-! ## C4, C5: the orchestrator -/

theorem fanIn_three (err : Option Error) (arrivals : List (Chan × Option Error))
    (h : 3 ≤ arrivals.length) :
    fanIn err 3 arrivals [] =
      some ((arrivals.take 3).map fun a => selectCase err a.1 a.2) := by
  match arrivals, h with
  | a :: b :: c :: rest, _ => simp [fanIn]

/-- C4, as stated, fails: the seed load succeeds, the servings worker reports
a read error, and ProcessFiles prints it and returns nil. -/
theorem worker_error_not_returned :
    ProcessFiles goLib ⟨"FNDDS"⟩ primaryExtract Store.empty {}
        [(Chan.rcn, none), (Chan.rcs, some "unexpected EOF"), (Chan.rci, none)] =
      some (["Nutrient ingest complete.\n", "Error from servings: unexpected EOF\n",
             "Food input complete.\n"], none) := by
  decide

/-- C4 (amended): when the seed load returns nil and three completion signals
arrive, ProcessFiles returns nil whatever the signals are; it prints one line
for each of the first three signals and ignores their values in its result. -/
theorem processFiles_returns_nil (lib : Lib) (p : Fndds) (food : CsvFile) (dc : Store)
    (cnts : Counts) (arrivals : List (Chan × Option Error))
    (hseed : (foods lib food dc cnts p.Doctype).map Prod.fst = some none)
    (harr : 3 ≤ arrivals.length) :
    ProcessFiles lib p food dc cnts arrivals =
      some ((arrivals.take 3).map fun a => selectCase none a.1 a.2, none) := by
  unfold ProcessFiles
  cases hf : foods lib food dc cnts p.Doctype with
  | none => rw [hf] at hseed; cases hseed
  | some res =>
    obtain ⟨err, store1, cnts1⟩ := res
    rw [hf] at hseed
    cases hseed
    simp [fanIn_three none arrivals harr]

/-- C4 (amended), at three signals that all carry an error. -/
theorem processFiles_returns_nil_witness :
    ((foods goLib primaryExtract Store.empty {} "FNDDS").map Prod.fst = some none ∧
      3 ≤ [(Chan.rci, some "e1"), (Chan.rcs, some "e2"), (Chan.rcn, some "e3")].length) ∧
    ProcessFiles goLib ⟨"FNDDS"⟩ primaryExtract Store.empty {}
        [(Chan.rci, some "e1"), (Chan.rcs, some "e2"), (Chan.rcn, some "e3")] =
      some (([(Chan.rci, some "e1"), (Chan.rcs, some "e2"), (Chan.rcn, some "e3")].take 3).map
        fun a => selectCase none a.1 a.2, none) :=
  ⟨⟨by decide, by decide⟩,
    processFiles_returns_nil goLib ⟨"FNDDS"⟩ primaryExtract Store.empty {} _ (by decide)
      (by decide)⟩

/-- C5: the nutrients worker sends a dictionary fetch error, and ProcessFiles
prints the completion line of the nutrients case, not its error line, while
the errors of the two other workers are printed. -/
theorem nutrients_error_reported_complete :
    ProcessFiles goLib ⟨"FNDDS"⟩ primaryExtract Store.empty {}
        [(Chan.rcs, none), (Chan.rcn, some "dictionary fetch failed"), (Chan.rci, none)] =
      some (["Servings ingest complete.\n", "Nutrient ingest complete.\n",
             "Food input complete.\n"], none) ∧
    ((nutrients goLib brokenDict { records := [] } seeded {}).map fun st => sends st.log) =
      some [some "dictionary fetch failed"] ∧
    selectCase none Chan.rcs (some "dictionary fetch failed") =
      "Error from servings: dictionary fetch failed\n" :=
  ⟨by decide, by decide, by decide⟩


/-! ## C6: keys without an aggregate -/

/-- C6: FX has no aggregate in the store and the records have keys F1, FX, F2.
The servings worker drops the error of dc.Get for FX, ends with the signal nil
and performs an Update under FX; the document stored under FX carries the FdcID
of F1 with the serving of FX, where the claim has an error signal or no write
under FX. -/
theorem unknown_key_written :
    seeded "FX" = none ∧
    ((servings goLib { records := [portionRow "1" "F1" "cup" "0.5", rowFX, rowF2] }
        seeded {}).map
        fun st => (sends st.log, (updates st.log).map Prod.fst,
          (st.store "FX").map fun f => (f.FdcID, f.Servings.map fun s => s.Description))) =
      some ([none], ["F1", "FX"], some ("F1", ["cup"])) :=
  ⟨by decide, by decide⟩

/-! ## C7, C10: one record -/

/-- C7, as stated, fails on a range error: the amount 1e40 is rejected by
ParseFloat at bit size 32, and the Serving appended for the record carries
plus infinity, not 0. -/
theorem range_error_not_zero :
    (goLib.ParseFloat "1e40" 32).failed = true ∧
    ((servingsRow goLib startServings (portionRow "1" "F1" "cup" "1e40")).map
        fun st => (st.acc.map fun s => s.Servingamount, st.cnts.Servings)) =
      some ([F32.inf false], 1) ∧
    F32.inf false ≠ F32.zero :=
  ⟨by decide, by decide, by decide⟩

/-- C7 (amended): a record with all the columns its worker reads is never
dropped, whatever the parsers return: the worker appends one subrecord to the
accumulator of the current key, adds one to its counter and sends nothing, and
each numeric field holds the value the parser returned next to its error, which
is 0 for a malformed field and, for a field out of range, an infinity (floats)
or the nearest 32-bit bound (integers). -/
theorem parse_failure_resilience (lib : Lib) (nutmap : Nat → Option Nutrient) :
    (FloatParse.value .malformed = F32.zero ∧
      (∀ neg, FloatParse.value (.outOfRange neg) = F32.inf neg) ∧
      IntParse.value 32 .malformed = 0 ∧
      IntParse.value 32 (.outOfRange false) = 2147483647 ∧
      IntParse.value 32 (.outOfRange true) = -2147483648) ∧
    (∀ (st : JoinState Serving) (record : Row), 8 ≤ record.length →
      ∃ st1 s, servingsRow lib st record = some st1 ∧
        st1.acc = (if st.cid = keyOf record then st.acc else []) ++ [s] ∧
        s.Servingamount = (lib.ParseFloat (record.getD 7 "") 32).value ∧
        st1.cnts.Servings = st.cnts.Servings + 1 ∧
        sends st1.log = sends st.log) ∧
    (∀ (st : JoinState NutrientData) (record : Row), nutrientsReadable lib record →
      ∃ st1 n, nutrientsRow lib nutmap st record = some st1 ∧
        st1.acc = (if st.cid = keyOf record then st.acc else []) ++ [n] ∧
        n.Value = (lib.ParseFloat (record.getD 3 "") 32).value ∧
        n.Nutrientno =
          ((nutmap (toUint ((lib.ParseInt (record.getD 2 "") 0 32).value 32))).getD
            {}).Nutrientno ∧
        st1.cnts.Nutrients = st.cnts.Nutrients + 1 ∧
        sends st1.log = sends st.log) ∧
    (∀ (st : JoinState InputFood) (record : Row), 11 ≤ record.length →
      ∃ st1 x, inputFoodsRow lib st record = some st1 ∧
        st1.acc = (if st.cid = keyOf record then st.acc else []) ++ [x] ∧
        x.Amount = (lib.ParseFloat (record.getD 4 "") 32).value ∧
        x.Weight = (lib.ParseFloat (record.getD 10 "") 16).value ∧
        x.SrCode = (lib.ParseInt (record.getD 5 "") 0 32).value 32 ∧
        x.SeqNo = (lib.ParseInt (record.getD 3 "") 0 32).value 32 ∧
        st1.cnts.Other = st.cnts.Other + 1 ∧
        sends st1.log = sends st.log) := by
  refine ⟨⟨rfl, fun _ => rfl, rfl, rfl, rfl⟩, ?_, ?_, ?_⟩
  · intro st record h
    have hrow := joinRow_some (servingsSpec lib) st record (keyOf record) _
      (keyOf_eq record (by omega)) (servingsDecode_some lib record h)
    rw [← servingsRow_eq] at hrow
    exact ⟨_, _, hrow, joinNext_acc (servingsSpec lib) st (keyOf record) _, rfl,
      by rw [joinNext_cnts]; rfl, joinNext_sends (servingsSpec lib) st (keyOf record) _⟩
  · intro st record h
    have hrow := joinRow_some (nutrientsSpec lib nutmap) st record (keyOf record) _
      (keyOf_eq record (by have := h.1; omega)) (nutrientsDecode_some lib nutmap record h)
    rw [← nutrientsRow_eq] at hrow
    exact ⟨_, _, hrow, joinNext_acc (nutrientsSpec lib nutmap) st (keyOf record) _, rfl, rfl,
      by rw [joinNext_cnts]; rfl, joinNext_sends (nutrientsSpec lib nutmap) st (keyOf record) _⟩
  · intro st record h
    have hrow := joinRow_some (inputFoodsSpec lib) st record (keyOf record) _
      (keyOf_eq record (by omega)) (inputFoodsDecode_some lib record h)
    rw [← inputFoodsRow_eq] at hrow
    exact ⟨_, _, hrow, joinNext_acc (inputFoodsSpec lib) st (keyOf record) _, rfl, rfl, rfl,
      rfl, by rw [joinNext_cnts]; rfl, joinNext_sends (inputFoodsSpec lib) st (keyOf record) _⟩

/-- C7 (amended), at a servings record whose amount is not a number. -/
theorem parse_failure_resilience_witness :
    (8 ≤ (portionRow "1" "F1" "cup" "half").length ∧
      goLib.ParseFloat ((portionRow "1" "F1" "cup" "half").getD 7 "") 32 = .malformed) ∧
    ∃ st1 s, servingsRow goLib startServings (portionRow "1" "F1" "cup" "half") = some st1 ∧
      st1.acc = (if startServings.cid = keyOf (portionRow "1" "F1" "cup" "half")
        then startServings.acc else []) ++ [s] ∧
      s.Servingamount =
        (goLib.ParseFloat ((portionRow "1" "F1" "cup" "half").getD 7 "") 32).value ∧
      st1.cnts.Servings = startServings.cnts.Servings + 1 ∧
      sends st1.log = sends startServings.log :=
  ⟨⟨by decide, by decide⟩,
    (parse_failure_resilience goLib (fun _ => none)).2.1 startServings
      (portionRow "1" "F1" "cup" "half") (by decide)⟩

/-- C10, as stated, fails on a record of four columns: its nutrient number 999
parses and is not in the map, its value abc does not parse, and the log line
of line 219 indexes record[4], so the loop body panics and appends nothing. -/
theorem short_nutrient_row_panics :
    goLib.ParseInt "999" 0 32 = .ok 999 ∧
    initNutrientInfoMap [{ Nutrientno := 203, Name := "Protein", Unit := "g" }]
      (toUint 999) = none ∧
    (goLib.ParseFloat "abc" 32).failed = true ∧
    (nutrientsRow goLib
      (initNutrientInfoMap [{ Nutrientno := 203, Name := "Protein", Unit := "g" }])
      startNutrients ["1", "F1", "999", "abc"]).isSome = false :=
  ⟨by decide, by decide, by decide, by decide⟩

/-- C10 (amended): a nutrients record wide enough for the worker to index
(columns 0 to 3, and column 4 when the value fails to parse), whose
nutrient number parses to v while uint(v) is not a key of the nutrient map,
is kept: the worker adds one to the nutrient counter, sends nothing, and
appends to the accumulator of the current key one NutrientData with
Nutrientno 0, empty Nutrient and Unit, no Derivation, and the Value parsed
from record[3]. -/
theorem unresolved_nutrient_number (lib : Lib) (nutmap : Nat → Option Nutrient)
    (st : JoinState NutrientData) (record : Row) (v : Int)
    (hlen : nutrientsReadable lib record)
    (hparse : lib.ParseInt (record.getD 2 "") 0 32 = .ok v)
    (hmiss : nutmap (toUint v) = none) :
    ∃ st1, nutrientsRow lib nutmap st record = some st1 ∧
      st1.cnts.Nutrients = st.cnts.Nutrients + 1 ∧
      st1.acc = (if st.cid = keyOf record then st.acc else []) ++
        [{ Nutrientno := 0, Nutrient := "", Unit := "", Derivation := none,
           Value := (lib.ParseFloat (record.getD 3 "") 32).value }] ∧
      sends st1.log = sends st.log := by
  have hd := nutrientsDecode_some lib nutmap record hlen
  simp only [hparse, IntParse.value, hmiss, Option.getD_none] at hd
  have hrow := joinRow_some (nutrientsSpec lib nutmap) st record (keyOf record) _
    (keyOf_eq record (by have := hlen.1; omega)) hd
  rw [← nutrientsRow_eq] at hrow
  exact ⟨_, hrow, by rw [joinNext_cnts]; rfl,
    joinNext_acc (nutrientsSpec lib nutmap) st (keyOf record) _,
    joinNext_sends (nutrientsSpec lib nutmap) st (keyOf record) _⟩

/-- C10 (amended), at a record naming nutrient 999 while the map only knows
203. -/
theorem unresolved_nutrient_number_witness :
    (nutrientsReadable goLib (nutrientRow "1" "F1" "999" "1.5") ∧
      goLib.ParseInt ((nutrientRow "1" "F1" "999" "1.5").getD 2 "") 0 32 = .ok 999 ∧
      initNutrientInfoMap [{ Nutrientno := 203, Name := "Protein", Unit := "g" }]
        (toUint 999) = none) ∧
    ∃ st1, nutrientsRow goLib
        (initNutrientInfoMap [{ Nutrientno := 203, Name := "Protein", Unit := "g" }])
        startNutrients (nutrientRow "1" "F1" "999" "1.5") = some st1 ∧
      st1.cnts.Nutrients = startNutrients.cnts.Nutrients + 1 ∧
      st1.acc = (if startNutrients.cid = keyOf (nutrientRow "1" "F1" "999" "1.5")
          then startNutrients.acc else []) ++
        [{ Nutrientno := 0, Nutrient := "", Unit := "", Derivation := none,
           Value := (goLib.ParseFloat ((nutrientRow "1" "F1" "999" "1.5").getD 3 "") 32).value }] ∧
      sends st1.log = sends startNutrients.log :=
  ⟨⟨by decide, by decide, by decide⟩,
    unresolved_nutrient_number goLib
      (initNutrientInfoMap [{ Nutrientno := 203, Name := "Protein", Unit := "g" }])
      startNutrients (nutrientRow "1" "F1" "999" "1.5") 999 (by decide) (by decide) (by decide)⟩


/-! ## C8: the seed loader -/

theorem update_encodable (conn : Store) (id : String) (r : Food) (h : encodable r = true) :
    DS.Update conn id r = fun k => if k = id then some r else conn k := by
  unfold DS.Update
  rw [if_pos h]

theorem update_seed (conn : Store) (id d t : String) (pub : Time) :
    DS.Update conn id
        { FdcID := id, Description := d, PublicationDate := pub, Source := t, Type_ := "FOOD" } =
      fun k => if k = id then
        some { FdcID := id, Description := d, PublicationDate := pub, Source := t,
               Type_ := "FOOD" }
      else conn k :=
  update_encodable conn id _ rfl

theorem foodsRow_some (lib : Lib) (t : String) (st : SeedState) (r : Row) (h : 5 ≤ r.length) :
    foodsRow lib t st r = some
      { store := DS.Update st.store (r.getD 0 "")
          { FdcID := r.getD 0 "", Description := r.getD 2 "",
            PublicationDate := (lib.timeParse (r.getD 4 "")).getD Time.zero,
            Source := t, Type_ := "FOOD" },
        cnts := { st.cnts with Foods := st.cnts.Foods + 1 } } := by
  have h0 := getq r 0 (by omega)
  have h2 := getq r 2 (by omega)
  have h4 := getq r 4 (by omega)
  unfold foodsRow
  simp only [h0, h2, h4, Option.bind_eq_bind, Option.some_bind, Option.pure_def]

theorem foodsLoop_spec (lib : Lib) (t : String) (rows : List Row) (st : SeedState)
    (h : ∀ r ∈ rows, 5 ≤ r.length) :
    ∃ st1, foodsLoop lib t st rows = some st1 ∧
      st1.cnts = { st.cnts with Foods := st.cnts.Foods + rows.length } ∧
      ∀ id, st1.store id =
        match lastRowOf id rows with
        | some r => some
            { FdcID := id, Description := r.getD 2 "",
              PublicationDate := (lib.timeParse (r.getD 4 "")).getD Time.zero,
              Source := t, Type_ := "FOOD" }
        | none => st.store id := by
  induction rows generalizing st with
  | nil => exact ⟨st, rfl, rfl, fun _ => rfl⟩
  | cons r rs ih =>
    have hr := foodsRow_some lib t st r (h r (List.mem_cons_self r rs))
    cases hrow : foodsRow lib t st r with
    | none => rw [hr] at hrow; cases hrow
    | some s =>
      rw [hr] at hrow
      have hs := Option.some.inj hrow
      obtain ⟨st1, h1, h2, h3⟩ := ih s (fun q hq => h q (List.mem_cons_of_mem r hq))
      rw [← hs] at h2 h3
      refine ⟨st1, ?_, ?_, ?_⟩
      · rw [← hs] at h1
        simp only [foodsLoop, hr, Option.bind_eq_bind, Option.some_bind, h1]
      · rw [h2]
        simp only [List.length_cons]
        congr 1
        omega
      · intro id
        rw [h3 id]
        simp only [lastRowOf]
        cases lastRowOf id rs with
        | some q => rfl
        | none =>
          by_cases hid : r.getD 0 "" = id
          · subst hid
            rw [update_seed]
            beta_reduce
            rw [if_pos rfl, if_pos rfl]
          · have hid2 : ¬ id = r.getD 0 "" := fun e => hid e.symm
            rw [update_seed]
            beta_reduce
            rw [if_neg hid2, if_neg hid]

theorem lastRowOf_sound (id : String) (rows : List Row) (q : Row)
    (h : lastRowOf id rows = some q) : q ∈ rows ∧ q.getD 0 "" = id := by
  induction rows with
  | nil => simp [lastRowOf] at h
  | cons a rs ih =>
    simp only [lastRowOf] at h
    cases hl : lastRowOf id rs with
    | some q1 =>
      rw [hl] at h
      cases h
      exact ⟨List.mem_cons_of_mem a (ih hl).1, (ih hl).2⟩
    | none =>
      rw [hl] at h
      by_cases ha : a.getD 0 "" = id
      · rw [if_pos ha] at h
        cases h
        exact ⟨List.mem_cons_self _ _, ha⟩
      · rw [if_neg ha] at h
        cases h

theorem lastRowOf_complete (id : String) (rows : List Row) (r : Row) (h : r ∈ rows)
    (hid : r.getD 0 "" = id) : ∃ q, lastRowOf id rows = some q := by
  induction rows with
  | nil => cases h
  | cons a rs ih =>
    simp only [lastRowOf]
    cases hl : lastRowOf id rs with
    | some q1 => exact ⟨q1, rfl⟩
    | none =>
      rcases List.mem_cons.mp h with h1 | h1
      · subst h1
        exact ⟨r, by rw [if_pos hid]⟩
      · obtain ⟨q1, e1⟩ := ih h1
        rw [hl] at e1
        cases e1

/-- C8: for a primary extract that opens, reads to io.EOF and has at least 5
columns in every record, foods returns nil; the Foods counter grows by the
number of records and the other counters are unchanged; every key of the
extract holds the aggregate built from the last record with that key (FdcID,
Description from column 2, Source the given doctype, Type FOOD, PublicationDate
the parsed column 4 or the zero time when it does not parse); and every record
has such a last record, so no record is dropped. -/
theorem foods_postcondition (lib : Lib) (file : CsvFile) (dc : Store) (cnts : Counts)
    (t : String) (hopen : file.openErr = none) (hread : file.readErr = none)
    (hcols : ∀ r ∈ file.records, 5 ≤ r.length) :
    ∃ store1 cnts1, foods lib file dc cnts t = some (none, store1, cnts1) ∧
      cnts1 = { cnts with Foods := cnts.Foods + file.records.length } ∧
      (∀ r ∈ file.records, ∃ last ∈ file.records,
        lastRowOf (r.getD 0 "") file.records = some last ∧
        last.getD 0 "" = r.getD 0 "" ∧
        store1 (r.getD 0 "") = some
          { FdcID := r.getD 0 "", Description := last.getD 2 "",
            PublicationDate := (lib.timeParse (last.getD 4 "")).getD Time.zero,
            Source := t, Type_ := "FOOD" }) ∧
      (∀ id, lastRowOf id file.records = none → store1 id = dc id) := by
  obtain ⟨st1, h1, h2, h3⟩ := foodsLoop_spec lib t file.records { store := dc, cnts := cnts } hcols
  refine ⟨st1.store, st1.cnts, ?_, h2, ?_, ?_⟩
  · unfold foods
    simp only [hopen, hread, h1, Option.isSome_none, Bool.false_eq_true, if_false,
      Option.bind_eq_bind, Option.some_bind]
  · intro r hr
    obtain ⟨q, hq⟩ := lastRowOf_complete (r.getD 0 "") file.records r hr rfl
    obtain ⟨hm, hk⟩ := lastRowOf_sound (r.getD 0 "") file.records q hq
    refine ⟨q, hm, hq, hk, ?_⟩
    rw [h3 (r.getD 0 ""), hq]
  · intro id hnone
    rw [h3 id, hnone]

/-- C8, at an extract in which F1 occurs twice and the date of F2 does not
parse. -/
theorem foods_postcondition_witness :
    (primaryExtract.openErr = none ∧ primaryExtract.readErr = none ∧
      ∀ r ∈ primaryExtract.records, 5 ≤ r.length) ∧
    ∃ store1 cnts1, foods goLib primaryExtract Store.empty {} "FNDDS" =
        some (none, store1, cnts1) ∧
      cnts1 = { ({} : Counts) with Foods := ({} : Counts).Foods + primaryExtract.records.length } ∧
      (∀ r ∈ primaryExtract.records, ∃ last ∈ primaryExtract.records,
        lastRowOf (r.getD 0 "") primaryExtract.records = some last ∧
        last.getD 0 "" = r.getD 0 "" ∧
        store1 (r.getD 0 "") = some
          { FdcID := r.getD 0 "", Description := last.getD 2 "",
            PublicationDate := (goLib.timeParse (last.getD 4 "")).getD Time.zero,
            Source := "FNDDS", Type_ := "FOOD" }) ∧
      (∀ id, lastRowOf id primaryExtract.records = none → store1 id = Store.empty id) :=
  ⟨⟨by decide, by decide, by decide⟩,
    foods_postcondition goLib primaryExtract Store.empty {} "FNDDS" (by decide) (by decide)
      (by decide)⟩


/-! ## C9: the terminal signal -/

/-- C9: each join worker returns having sent exactly one value.  If os.Open
fails, it is that error.  Otherwise, for nutrients, if a GetDictionary call
fails it is the error of that call, and then the log holds nothing but the
send while the store and the counters are untouched.  Otherwise, when no record
is too short to index, it is the read error that ended the stream, or nil at
io.EOF, whatever the parsers made of the fields. -/
theorem single_terminal_signal (lib : Lib) (env : DictEnv) (file : CsvFile) (dc : Store)
    (cnts : Counts) :
    ((∀ e, file.openErr = some e →
        ∃ st, servings lib file dc cnts = some st ∧ sends st.log = [some e]) ∧
      (file.openErr = none → (∀ r ∈ file.records, 8 ≤ r.length) →
        ∃ st, servings lib file dc cnts = some st ∧ sends st.log = [file.readErr])) ∧
    ((∀ e, file.openErr = some e →
        ∃ st, nutrients lib env file dc cnts = some st ∧ sends st.log = [some e]) ∧
      (file.openErr = none → ∀ e, env.GetDictionary "gnutdata" "NUT" 0 500 = .error e →
        ∃ st, nutrients lib env file dc cnts = some st ∧
          st.log = [Event.send (some e)] ∧ st.store = dc ∧ st.cnts = cnts) ∧
      (file.openErr = none → ∀ il e, env.GetDictionary "gnutdata" "NUT" 0 500 = .ok il →
        env.GetDictionary "gnutdata" "DERV" 0 500 = .error e →
        ∃ st, nutrients lib env file dc cnts = some st ∧
          st.log = [Event.send (some e)] ∧ st.store = dc ∧ st.cnts = cnts) ∧
      (file.openErr = none → ∀ il il2, env.GetDictionary "gnutdata" "NUT" 0 500 = .ok il →
        env.GetDictionary "gnutdata" "DERV" 0 500 = .ok il2 →
        (∀ r ∈ file.records, nutrientsReadable lib r) →
        ∃ st, nutrients lib env file dc cnts = some st ∧ sends st.log = [file.readErr])) ∧
    ((∀ e, file.openErr = some e →
        ∃ st, inputFoods lib file dc cnts = some st ∧ sends st.log = [some e]) ∧
      (file.openErr = none → (∀ r ∈ file.records, 11 ≤ r.length) →
        ∃ st, inputFoods lib file dc cnts = some st ∧ sends st.log = [file.readErr])) := by
  refine ⟨⟨?_, ?_⟩, ⟨?_, ?_, ?_, ?_⟩, ⟨?_, ?_⟩⟩
  · intro e hopen
    unfold servings
    rw [hopen]
    exact ⟨_, rfl, rfl⟩
  · intro hopen hrows
    obtain ⟨st1, h1⟩ := joinLoop_total (servingsSpec lib) file.records
      { store := dc, cnts := cnts }
      (fun r hr => ⟨by have := hrows r hr; omega,
        by simp [servingsSpec, servingsDecode_some lib r (hrows r hr)]⟩)
    have hs := joinLoop_sends (servingsSpec lib) file.records _ st1 h1
    unfold servings
    simp only [hopen, servingsLoop_eq, h1, Option.bind_eq_bind, Option.some_bind]
    cases file.readErr with
    | none => exact ⟨_, rfl, by simp [sends_append, sends, hs]⟩
    | some e => exact ⟨_, rfl, by simp [sends_append, sends, hs]⟩
  · intro e hopen
    unfold nutrients
    simp only [hopen, Option.isSome_some, if_true]
    exact ⟨_, rfl, rfl⟩
  · intro hopen e hnut
    unfold nutrients
    simp only [hopen, hnut, Option.isSome_none, Bool.false_eq_true, if_false]
    exact ⟨_, rfl, rfl, rfl, rfl⟩
  · intro hopen il e hnut hderv
    unfold nutrients
    simp only [hopen, hnut, hderv, Option.isSome_none, Bool.false_eq_true, if_false]
    exact ⟨_, rfl, rfl, rfl, rfl⟩
  · intro hopen il il2 hnut hderv hrows
    obtain ⟨st1, h1⟩ := joinLoop_total (nutrientsSpec lib (env.InitNutrientInfoMap il))
      file.records { store := dc, cnts := cnts }
      (fun r hr => ⟨by have := (hrows r hr).1; omega,
        by simp [nutrientsSpec, nutrientsDecode_some lib _ r (hrows r hr)]⟩)
    have hs := joinLoop_sends (nutrientsSpec lib (env.InitNutrientInfoMap il))
      file.records _ st1 h1
    unfold nutrients
    simp only [hopen, hnut, hderv, nutrientsLoop_eq, h1, Option.bind_eq_bind, Option.some_bind,
      Option.isSome_none, Bool.false_eq_true, if_false]
    cases file.readErr with
    | none => exact ⟨_, rfl, by simp [sends_append, sends, hs]⟩
    | some e => exact ⟨_, rfl, by simp [sends_append, sends, hs]⟩
  · intro e hopen
    unfold inputFoods
    rw [hopen]
    exact ⟨_, rfl, rfl⟩
  · intro hopen hrows
    obtain ⟨st1, h1⟩ := joinLoop_total (inputFoodsSpec lib) file.records
      { store := dc, cnts := cnts }
      (fun r hr => ⟨by have := hrows r hr; omega,
        by simp [inputFoodsSpec, inputFoodsDecode_some lib r (hrows r hr)]⟩)
    have hs := joinLoop_sends (inputFoodsSpec lib) file.records _ st1 h1
    unfold inputFoods
    simp only [hopen, inputFoodsLoop_eq, h1, Option.bind_eq_bind, Option.some_bind]
    cases file.readErr with
    | none => exact ⟨_, rfl, by simp [sends_append, sends, hs]⟩
    | some e => exact ⟨_, rfl, by simp [sends_append, sends, hs]⟩

/-- C9, at a nutrients extract with an unparsable record that ends in a read
error: the one value sent is that read error. -/
theorem single_terminal_signal_witness :
    (brokenExtract.openErr = none ∧
      sampleDict.GetDictionary "gnutdata" "NUT" 0 500 =
        .ok [{ Nutrientno := 203, Name := "Protein", Unit := "g" }] ∧
      sampleDict.GetDictionary "gnutdata" "DERV" 0 500 =
        .ok [{ Nutrientno := 203, Name := "Protein", Unit := "g" }] ∧
      (goLib.ParseInt "x" 0 32).failed = true ∧ (goLib.ParseFloat "y" 32).failed = true ∧
      ∀ r ∈ brokenExtract.records, nutrientsReadable goLib r) ∧
    ∃ st, nutrients goLib sampleDict brokenExtract seeded {} = some st ∧
      sends st.log = [brokenExtract.readErr] :=
  ⟨⟨rfl, rfl, rfl, by decide, by decide, by decide⟩,
    (single_terminal_signal goLib sampleDict brokenExtract seeded {}).2.1.2.2.2 rfl _ _ rfl rfl
      (by decide)⟩

end FnddsIngest
